import Mathlib

/-!
Verification of the CGM M1 Pro list parser (`CGMParser.py`).

The development shallowly embeds the record segmentation and field
extraction engine of the source: Python `re` patterns are embedded
either through a small backtracking regular-expression engine with
Python's leftmost/greedy `re.search` semantics (for the composite
header/content patterns), or as directly specialised column matchers
(for the fixed-shape delimiter and column patterns).  Stateful parsing
loops become folds over an explicit state; Python exceptions
(`FailedGrepMatch`, `IndexError`, `UnboundLocalError`, `ValueError`,
`KeyError`, `TypeError`, attribute access on `None`) become an
`Except` error type.
-/

namespace CGM

/-! ### Python character classes (ASCII fragment plus German letters)

`\w` in Python 3 `str` patterns is Unicode aware; the inputs treated
here use the cp1252 repertoire, of which the letters, digits,
underscore and the German umlauts/sharp s are modelled. -/

def pyUmlaut (c : Char) : Bool :=
  c = 'ä' || c = 'ö' || c = 'ü' || c = 'Ä' || c = 'Ö' || c = 'Ü' || c = 'ß'

/-- Python `\w` (word character). -/
def pyWord (c : Char) : Bool :=
  c.isAlphanum || c = '_' || pyUmlaut c

/-- Python `\d`. -/
def pyDigit (c : Char) : Bool := c.isDigit

/-- Python `\s`. -/
def pySpace (c : Char) : Bool :=
  c = ' ' || c = '\t' || c = '\n' || c = '\x0d' || c = '\x0b' || c = '\x0c'

/-- Python `.` without `re.DOTALL`: any character except a newline. -/
def pyDot (c : Char) : Bool := c ≠ '\n'

/-- Character class `[\w .-]` (used for name fields). -/
def pyNameChar (c : Char) : Bool := pyWord c || c = ' ' || c = '.' || c = '-'

/-- Character class `[\w ()&+/.-]` (used for the insurer name). -/
def pyKasseChar (c : Char) : Bool :=
  pyWord c || c = ' ' || c = '(' || c = ')' || c = '&' || c = '+' || c = '/' ||
    c = '.' || c = '-'

/-- Character class `[A-Z0-9]`. -/
def pyUpperDigit (c : Char) : Bool := (c.isUpper && c.isAlpha) || c.isDigit

/-- Character class `[MFR]`. -/
def pyMFR (c : Char) : Bool := c = 'M' || c = 'F' || c = 'R'

/-- Character class `[\w-]` (word run in the TGS column patterns). -/
def pyWordHy (c : Char) : Bool := pyWord c || c = '-'

/-! ### A small backtracking regex engine

The engine implements the fragment of Python `re` used by the source:
character classes, concatenation, greedy `*` (and `+` as derived
form), counted repetition `{n}`, numbered capture groups (a starred
group stores its last iteration, as in Python), and the `^` anchor.
`reSearch` performs `re.search`: the match attempt is made at every
start position from the left, and within one position alternatives are
explored greedily with backtracking, which is Python's leftmost,
greedy-with-backtracking strategy.  Captures from abandoned branches
are discarded, as in Python. -/

inductive RE where
  | cls (p : Char → Bool)
  | bol
  | seq (a b : RE)
  | star (r : RE)
  | rep (n : Nat) (r : RE)
  | grp (i : Nat) (r : RE)

/-- Captures: group index paired with captured text, most recent first. -/
abbrev Caps := List (Nat × String)

def getCap (caps : Caps) (i : Nat) : Option String :=
  (caps.find? (fun p => p.1 = i)).map (fun p => p.2)

/-- Backtracking matcher in continuation style.  `fuel` only bounds the
depth of the call tree (every recursive call consumes one unit); the
patterns and inputs in this development stay far below the supplied
fuel, so the engine is total and faithful on them. -/
def reRun (fuel : Nat) (re : RE) (s : List Char) (pos : Nat) (caps : Caps)
    (k : List Char → Nat → Caps → Option Caps) : Option Caps :=
  match fuel with
  | 0 => none
  | fuel + 1 =>
    match re with
    | .cls p =>
      match s with
      | c :: rest => if p c then k rest (pos + 1) caps else none
      | [] => none
    | .bol => if pos = 0 then k s pos caps else none
    | .seq a b =>
      reRun fuel a s pos caps (fun s' p' c' => reRun fuel b s' p' c' k)
    | .rep 0 _ => k s pos caps
    | .rep (n + 1) r =>
      reRun fuel r s pos caps (fun s' p' c' => reRun fuel (.rep n r) s' p' c' k)
    | .star r =>
      (reRun fuel r s pos caps (fun s' p' c' =>
        if pos < p' then reRun fuel (.star r) s' p' c' k else none)) <|>
      k s pos caps
    | .grp i r =>
      reRun fuel r s pos caps (fun s' p' c' =>
        k s' p' ((i, String.mk (s.take (p' - pos))) :: c'))

def reFuel : Nat := 20000

/-- One match attempt at a fixed start position. -/
def reTry (re : RE) (s : List Char) (pos : Nat) : Option Caps :=
  reRun reFuel re s pos [] (fun _ _ caps => some caps)

/-- `re.search`: attempt at every start position, leftmost first. -/
def reSearchAux (re : RE) (s : List Char) (pos : Nat) : Option Caps :=
  match reTry re s pos with
  | some caps => some caps
  | none =>
    match s with
    | [] => none
    | _ :: rest => reSearchAux re rest (pos + 1)

def reSearch (re : RE) (s : String) : Option Caps :=
  reSearchAux re s.data 0

/-- `r+` as `r r*`. -/
def RE.plus (r : RE) : RE := .seq r (.star r)

def reChar (c : Char) : RE := .cls (fun d => d = c)

def reSeqList (l : List RE) : RE :=
  match l with
  | [] => .rep 0 .bol
  | [r] => r
  | r :: rs => .seq r (reSeqList rs)

def reStr (t : String) : RE := reSeqList (t.data.map reChar)

/-- `\d{2}.\d{2}.\d{4}` (the `.` is the any-character class). -/
def reDate4 : RE :=
  reSeqList [.rep 2 (.cls pyDigit), .cls pyDot, .rep 2 (.cls pyDigit),
    .cls pyDot, .rep 4 (.cls pyDigit)]

/-! ### The composite patterns of the source, as regex ASTs -/

/-- GOF record line 1:
`(^\d*)\s+([\w .-]+), ([\w .-]+)\s+(\d{2}.\d{2}.\d{4})`. -/
def reGofLine1 : RE :=
  reSeqList [.grp 1 (.seq .bol (.star (.cls pyDigit))),
    RE.plus (.cls pySpace),
    .grp 2 (RE.plus (.cls pyNameChar)),
    reStr ", ",
    .grp 3 (RE.plus (.cls pyNameChar)),
    RE.plus (.cls pySpace),
    .grp 4 reDate4]

/-- GOF record line 2:
`([\w]+)\s+(\d)(\d{4})\s+([MFR]*)\s+(\d*)\s+(\d{2})`. -/
def reGofLine2 : RE :=
  reSeqList [.grp 1 (RE.plus (.cls pyWord)),
    RE.plus (.cls pySpace),
    .grp 2 (.cls pyDigit),
    .grp 3 (.rep 4 (.cls pyDigit)),
    RE.plus (.cls pySpace),
    .grp 4 (.star (.cls pyMFR)),
    RE.plus (.cls pySpace),
    .grp 5 (.star (.cls pyDigit)),
    RE.plus (.cls pySpace),
    .grp 6 (.rep 2 (.cls pyDigit))]

/-- GOF notice head line:
`^(\d{2}.\d{2}.\d{4})\s(\w+)(\s\(\w{3}\))*`.  The starred group 3
keeps its last iteration, as in Python. -/
def reGofInfo : RE :=
  reSeqList [.bol,
    .grp 1 reDate4,
    .cls pySpace,
    .grp 2 (RE.plus (.cls pyWord)),
    .star (.grp 3 (reSeqList [.cls pySpace, reChar '(', .rep 3 (.cls pyWord),
      reChar ')']))]

/-- TGS record line 1: `^Patientennr. (\d+)\s*(.*)` (the `.` after
`Patientennr` is the any-character class). -/
def reTgsLine1 : RE :=
  reSeqList [.bol,
    reStr "Patientennr",
    .cls pyDot,
    reChar ' ',
    .grp 1 (RE.plus (.cls pyDigit)),
    .star (.cls pySpace),
    .grp 2 (.star (.cls pyDot))]

/-- TGS record line 2:
`([\w .-]+),([\w .-]+);\s\*\s(\d{2}.\d{2}.\d{4}),\s([\w ()&+/.-]+),\s*([A-Z0-9]*)`. -/
def reTgsLine2 : RE :=
  reSeqList [.grp 1 (RE.plus (.cls pyNameChar)),
    reChar ',',
    .grp 2 (RE.plus (.cls pyNameChar)),
    reChar ';',
    .cls pySpace,
    reChar '*',
    .cls pySpace,
    .grp 3 reDate4,
    reChar ',',
    .cls pySpace,
    .grp 4 (RE.plus (.cls pyKasseChar)),
    reChar ',',
    .star (.cls pySpace),
    .grp 5 (.star (.cls pyUpperDigit))]

/-! ### Directly specialised matchers

The fixed-shape patterns (`re.match` on the delimiters, the two
`re.sub` calls, and the three TGS column patterns) are embedded as
closed-form functions; each is the exact specialisation of the
corresponding Python call on line-shaped input. -/

/-- `re.sub(r' +$', '', line)`: remove the run of spaces standing
immediately before the end of the string, or before its final
newline. -/
def trimTrailing (line : String) : String :=
  let cs := line.data
  let dropSp := fun (l : List Char) => (l.reverse.dropWhile (fun c => c = ' ')).reverse
  match cs.getLast? with
  | some '\n' => String.mk (dropSp cs.dropLast ++ ['\n'])
  | _ => String.mk (dropSp cs)

/-- `re.sub(r'^\s*|\n', '', line)`: remove leading whitespace and all
newline characters. -/
def trimLead (line : String) : String :=
  String.mk ((line.data.dropWhile pySpace).filter (fun c => c ≠ '\n'))

/-- `re.match(r'={85} {6}\n', line)` as a Boolean: the GOF record
delimiter. -/
def gofDelim : String := String.mk (List.replicate 85 '=' ++ List.replicate 6 ' ' ++ ['\n'])

def isGofDelim (line : String) : Bool := gofDelim.data.isPrefixOf line.data

/-- `re.match(r'-{96}', line)` as a Boolean: the TGS record delimiter. -/
def tgsDelim : String := String.mk (List.replicate 96 '-')

def isTgsDelim (line : String) : Bool := tgsDelim.data.isPrefixOf line.data

/-- `re.search(r'^(\d{2}.\d{2}.\d{2})', line)`: anchored, so it matches
exactly when the first eight characters are digit pairs separated by
two arbitrary non-newline characters; the capture is those eight
characters. -/
def matchDate (line : String) : Option String :=
  let cs := line.data
  if cs.length ≥ 8 ∧
      (pyDigit (cs.getD 0 ' ') ∧ pyDigit (cs.getD 1 ' ') ∧ pyDot (cs.getD 2 ' ') ∧
       pyDigit (cs.getD 3 ' ') ∧ pyDigit (cs.getD 4 ' ') ∧ pyDot (cs.getD 5 ' ') ∧
       pyDigit (cs.getD 6 ' ') ∧ pyDigit (cs.getD 7 ' ')) then
    some (String.mk (cs.take 8))
  else none

/-- `re.search(r'^.{v}([\w-]+)', line)`: anchored by `^`, the `v`
any-characters must not be newlines and a `[\w-]` character must stand
at column `v`; the capture is the maximal `[\w-]` run from column `v`
(the run may well be the tail of a word that began before the
column). -/
def matchOther (v : Nat) (line : String) : Option String :=
  let cs := line.data
  if v < cs.length ∧ (cs.take v).all pyDot ∧ pyWordHy (cs.getD v ' ') then
    some (String.mk ((cs.drop v).takeWhile pyWordHy))
  else none

/-- `re.search(r'.{28}(.+)', line)`: the leftmost position followed by
29 non-newline characters starts the match; the capture is the maximal
non-newline run after the first 28 of them. -/
def matchTextAux : List Char → Option String
  | [] => none
  | c :: rest =>
    if ((c :: rest).take 29).length = 29 ∧ ((c :: rest).take 29).all pyDot then
      some (String.mk (((c :: rest).drop 28).takeWhile pyDot))
    else matchTextAux rest

def matchText (line : String) : Option String := matchTextAux line.data

/-- Python `s[1:-1]`. -/
def pySlice1m1 (s : String) : String :=
  String.mk (s.data.dropLast.drop 1)

/-- Python `s.split(sep)` for a non-empty separator: `''` yields
`['']`, and a string without the separator yields `[s]`. -/
def pySplitAux (sep : List Char) (fuel : Nat) (cs : List Char) : List (List Char) :=
  match fuel with
  | 0 => [cs]
  | fuel + 1 =>
    match splitIdx cs 0 with
    | some i => cs.take i :: pySplitAux sep fuel (cs.drop (i + sep.length))
    | none => [cs]
where
  splitIdx : List Char → Nat → Option Nat
    | [], _ => none
    | c :: rest, i =>
      if (c :: rest).take sep.length = sep then some i else splitIdx rest (i + 1)

def pySplit (sep : String) (s : String) : List String :=
  (pySplitAux sep.data (s.length + 1) s.data).map String.mk

/-! ### `datetime.strptime(...).date().strftime('%Y-%m-%d')`

`%d.%m.%Y` and `%d.%m.%y` on input that the regexes have already
shaped as digit pairs (and a four/two digit year): the separators must
be literal dots, the month and day must form a real calendar date
(leap years included), and `%y` applies CPython's pivot, `00`–`68`
meaning 2000–2068 and `69`–`99` meaning 1969–1999.  A failure models
the `ValueError` that `strptime` raises. -/

def digitVal (c : Char) : Nat := c.toNat - '0'.toNat

def isLeap (y : Nat) : Bool :=
  (y % 4 = 0 && y % 100 ≠ 0) || y % 400 = 0

def daysInMonth (y m : Nat) : Nat :=
  if m = 2 then (if isLeap y then 29 else 28)
  else if m = 4 ∨ m = 6 ∨ m = 9 ∨ m = 11 then 30
  else 31

def validDate (y m d : Nat) : Bool :=
  1 ≤ m && m ≤ 12 && 1 ≤ d && d ≤ daysInMonth y m && 1 ≤ y && y ≤ 9999

def pad2 (n : Nat) : String :=
  if n < 10 then "0" ++ toString n else toString n

def pad4 (n : Nat) : String :=
  if n < 10 then "000" ++ toString n
  else if n < 100 then "00" ++ toString n
  else if n < 1000 then "0" ++ toString n
  else toString n

def isoDate (y m d : Nat) : String := pad4 y ++ "-" ++ pad2 m ++ "-" ++ pad2 d

/-- `strptime(s, '%d.%m.%Y').date().strftime('%Y-%m-%d')` on a
`dd?mm?yyyy`-shaped string. -/
def strptimeDmy4 (s : String) : Option String :=
  match s.data with
  | [d1, d2, s1, m1, m2, s2, y1, y2, y3, y4] =>
    if d1.isDigit ∧ d2.isDigit ∧ m1.isDigit ∧ m2.isDigit ∧
        y1.isDigit ∧ y2.isDigit ∧ y3.isDigit ∧ y4.isDigit ∧ s1 = '.' ∧ s2 = '.' then
      let d := digitVal d1 * 10 + digitVal d2
      let m := digitVal m1 * 10 + digitVal m2
      let y := digitVal y1 * 1000 + digitVal y2 * 100 + digitVal y3 * 10 + digitVal y4
      if validDate y m d then some (isoDate y m d) else none
    else none
  | _ => none

/-- `strptime(s, '%d.%m.%y').date().strftime('%Y-%m-%d')` on a
`dd?mm?yy`-shaped string. -/
def strptimeDmy2 (s : String) : Option String :=
  match s.data with
  | [d1, d2, s1, m1, m2, s2, y1, y2] =>
    if d1.isDigit ∧ d2.isDigit ∧ m1.isDigit ∧ m2.isDigit ∧
        y1.isDigit ∧ y2.isDigit ∧ s1 = '.' ∧ s2 = '.' then
      let d := digitVal d1 * 10 + digitVal d2
      let m := digitVal m1 * 10 + digitVal m2
      let yy := digitVal y1 * 10 + digitVal y2
      let y := if yy ≤ 68 then 2000 + yy else 1900 + yy
      if validDate y m d then some (isoDate y m d) else none
    else none
  | _ => none

/-! ### Errors

Python exceptions raised (or raisable) by the engine.  `FailedGrepMatch`
messages attach the offending record block at three of its four raise
sites; the attached block, when present, is the payload. -/

inductive PErr where
  | failedGrepMatch (rec : Option (List String))
  | indexError
  | unboundLocal
  | valueError
  | keyError
  | typeError
  | noneContext
  deriving DecidableEq, Repr

/-! ### Record splitter (`ParsingContext.separate_records`)

The constructor drops `raw_input[4:]` (header plus first delimiter);
for TGS the footer `raw_input[:-3]` has been removed first.  A line
matching the delimiter closes the current buffer; other lines are
appended after trailing-whitespace trimming; the final buffer is
appended at the end. -/

def separateAux (delim : String → Bool) : List String → List String → List (List String)
  | [], cur => [cur]
  | line :: rest, cur =>
    if delim line then cur :: separateAux delim rest []
    else separateAux delim rest (cur ++ [trimTrailing line])

namespace GOF

def separate_records (raw : List String) : List (List String) :=
  separateAux isGofDelim (raw.drop 4) []

end GOF

namespace TGS

def separate_records (raw : List String) : List (List String) :=
  separateAux isTgsDelim ((raw.dropLast.dropLast.dropLast).drop 4) []

end TGS

/-! ### GOF field extraction and content parsing -/

/-- A finalized GOF notice (`{'date', 'type', 'erfasser', 'text'}`, all
keys always assigned together). -/
structure GofNotice where
  date : String
  type : String
  erfasser : String
  text : String
  deriving DecidableEq, Repr

/-- The notice being accumulated: `text` is still the token list. -/
structure GofCur where
  date : String
  type : String
  erfasser : String
  text : List String
  deriving DecidableEq, Repr

/-- `_write_record_content`: join the text tokens with single spaces
and append the notice. -/
def gofWrite (cur : GofCur) (acc : List GofNotice) : List GofNotice :=
  acc ++ [⟨cur.date, cur.type, cur.erfasser, " ".intercalate cur.text⟩]

/-- Python `s[2:-1]` (strips `' ('` and `')'` of the recorder group). -/
def pySlice2m1 (s : String) : String :=
  String.mk (s.data.dropLast.drop 2)

structure GofState where
  cur : Option GofCur
  acc : List GofNotice
  newLine : Bool
  deriving DecidableEq, Repr

namespace GOF

/-- One iteration of the `ParsingContextGOF._parse_content` loop.  The
local `current_content` starts the loop unassigned; touching it before
the first info line raises `UnboundLocalError`. -/
def content_step (st : GofState) (line : String) : Except PErr GofState :=
  match reSearch reGofInfo line with
  | some caps => do
    let acc ←
      if st.newLine then pure st.acc
      else
        match st.cur with
        | some c => pure (gofWrite c st.acc)
        | none => throw PErr.unboundLocal
    let d ←
      match strptimeDmy4 ((getCap caps 1).getD "") with
      | some d => pure d
      | none => throw PErr.valueError
    let ty := (getCap caps 2).getD ""
    let erf :=
      match getCap caps 3 with
      | none => ""
      | some g => pySlice2m1 g
    pure ⟨some ⟨d, ty, erf, []⟩, acc, false⟩
  | none =>
    match st.cur with
    | some c => pure ⟨some { c with text := c.text ++ [trimLead line] }, st.acc, false⟩
    | none => throw PErr.unboundLocal

def parse_content (content : List String) : Except PErr (List GofNotice) := do
  let st ← content.foldlM content_step ⟨none, [], true⟩
  match st.cur with
  | some c => pure (gofWrite c st.acc)
  | none => throw PErr.unboundLocal

end GOF

structure CGMPatientGOF where
  pat_id : String
  first_name : String
  last_name : String
  birth_date : String
  billing_type : String
  quarter : String
  qyear : String
  ins_status : String
  vknr : String
  ktab : String
  content : List GofNotice
  deriving DecidableEq, Repr

namespace GOF

/-- One iteration of `ParsingContextGOF.parse_records`: line 1 and
line 2 matched in order (the second raise site formats no record into
its message), then the content, then the birth-date conversion inside
the constructor call. -/
def parse_record (rec : List String) : Except PErr CGMPatientGOF := do
  let l0 ←
    match rec.get? 0 with
    | some l => pure l
    | none => throw PErr.indexError
  let caps0 ←
    match reSearch reGofLine1 l0 with
    | some c => pure c
    | none => throw (PErr.failedGrepMatch (some rec))
  let l1 ←
    match rec.get? 1 with
    | some l => pure l
    | none => throw PErr.indexError
  let caps1 ←
    match reSearch reGofLine2 l1 with
    | some c => pure c
    | none => throw (PErr.failedGrepMatch none)
  let content ← parse_content (rec.drop 2)
  let bd ←
    match strptimeDmy4 ((getCap caps0 4).getD "") with
    | some d => pure d
    | none => throw PErr.valueError
  pure ⟨(getCap caps0 1).getD "", (getCap caps0 3).getD "", (getCap caps0 2).getD "", bd,
    (getCap caps1 1).getD "", (getCap caps1 2).getD "", (getCap caps1 3).getD "",
    (getCap caps1 4).getD "", (getCap caps1 5).getD "", (getCap caps1 6).getD "", content⟩

/-- The `for rec in records` loop: records parsed in order, results
collected in order, the first exception aborting the whole parse. -/
def parse_records : List (List String) → Except PErr (List CGMPatientGOF)
  | [] => pure []
  | rec :: rest => do
    let r ← parse_record rec
    let rs ← parse_records rest
    pure (r :: rs)

end GOF

/-! ### TGS content parsing (`ParsingContextTGS._parse_content`) -/

/-- The note being accumulated.  Python uses a dict starting as
`{'text': []}`; an attribute key absent from the dict is `none`. -/
structure NoteB where
  date : Option String
  erfasser : Option String
  schein_typ : Option String
  behandler : Option String
  fachgebiet : Option String
  zeilentyp : Option String
  text : List String
  deriving DecidableEq, Repr

/-- A finalized note: text joined with single spaces. -/
structure FinNote where
  date : Option String
  erfasser : Option String
  schein_typ : Option String
  behandler : Option String
  fachgebiet : Option String
  zeilentyp : Option String
  text : String
  deriving DecidableEq, Repr

def finalizeNote (n : NoteB) : FinNote :=
  ⟨n.date, n.erfasser, n.schein_typ, n.behandler, n.fachgebiet, n.zeilentyp,
    " ".intercalate n.text⟩

/-- The five sticky attributes, in the insertion order of
`TGS_INDENT_LEVELS`. -/
inductive TAttr where
  | erfasser
  | schein_typ
  | behandler
  | fachgebiet
  | zeilentyp
  deriving DecidableEq, Repr

/-- The column offsets of `TGS_INDENT_LEVELS`. -/
def TAttr.col : TAttr → Nat
  | .erfasser => 9
  | .schein_typ => 13
  | .behandler => 15
  | .fachgebiet => 19
  | .zeilentyp => 23

def TAttr.set : TAttr → String → NoteB → NoteB
  | .erfasser, w, n => { n with erfasser := some w }
  | .schein_typ, w, n => { n with schein_typ := some w }
  | .behandler, w, n => { n with behandler := some w }
  | .fachgebiet, w, n => { n with fachgebiet := some w }
  | .zeilentyp, w, n => { n with zeilentyp := some w }

def TAttr.get : TAttr → NoteB → Option String
  | .erfasser, n => n.erfasser
  | .schein_typ, n => n.schein_typ
  | .behandler, n => n.behandler
  | .fachgebiet, n => n.fachgebiet
  | .zeilentyp, n => n.zeilentyp

def TGS_INDENT_LEVELS : List TAttr :=
  [.erfasser, .schein_typ, .behandler, .fachgebiet, .zeilentyp]

/-- Parser state for the TGS content loop.  `emitted` and `curLines`
carry, as pure instrumentation, the source lines that were processed
while each note was current (the line that closes note `k` opens note
`k+1` and is attributed to note `k+1`); the instrumentation feeds
nothing back into the parse. -/
structure TState where
  emitted : List (FinNote × List String)
  cur : NoteB
  curLines : List String
  newLine : Bool
  deriving DecidableEq, Repr

/-- Emitting the current note: `_write_record_content` followed by the
copy with cleared text (`current_content = current_content.copy();
current_content['text'] = []`). -/
def tgsClose (st : TState) : TState :=
  { emitted := st.emitted ++ [(finalizeNote st.cur, st.curLines)],
    cur := { st.cur with text := [] }, curLines := [], newLine := true }

/-- One iteration of the inner `for k, v in TGS_INDENT_LEVELS.items()`
loop: on a non-first line, a date or column match first emits the
current note and restarts it as a copy with cleared text; then the
date and the attribute are (re)captured. -/
def tgsAttrStep (line : String) (st : TState) (a : TAttr) : Except PErr TState := do
  let md := matchDate line
  let mo := matchOther a.col line
  let st := if st.newLine = false ∧ (md.isSome ∨ mo.isSome) then tgsClose st else st
  let st ←
    match md with
    | some ds =>
      match strptimeDmy2 ds with
      | some d => pure { st with cur := { st.cur with date := some d } }
      | none => throw PErr.valueError
    | none => pure st
  let st :=
    match mo with
    | some w => { st with cur := a.set w st.cur }
    | none => st
  pure st

/-- After the five attribute steps: `new_line = False`, then the
column-28 text capture, and the processed line recorded in the
instrumentation. -/
def tgsLinePost (line : String) (st : TState) : TState :=
  let st := { st with newLine := false }
  let st :=
    match matchText line with
    | some t => { st with cur := { st.cur with text := st.cur.text ++ [t] } }
    | none => st
  { st with curLines := st.curLines ++ [line] }

/-- One iteration of the outer line loop: the five attribute steps,
then `new_line = False`, then the column-28 text capture. -/
def tgsLineStep (st : TState) (line : String) : Except PErr TState := do
  let st ← TGS_INDENT_LEVELS.foldlM (tgsAttrStep line) st
  pure (tgsLinePost line st)

def tgsInit : TState := ⟨[], ⟨none, none, none, none, none, none, []⟩, [], true⟩

namespace TGS

/-- `_parse_content` with the line instrumentation kept. -/
def parse_contentI (content : List String) :
    Except PErr (List (FinNote × List String)) := do
  let st ← content.foldlM tgsLineStep tgsInit
  pure (st.emitted ++ [(finalizeNote st.cur, st.curLines)])

/-- `ParsingContextTGS._parse_content`: the instrumentation projected
away. -/
def parse_content (content : List String) : Except PErr (List FinNote) :=
  (parse_contentI content).map (List.map Prod.fst)

end TGS

/-! ### TGS records -/

/-- `groups` and `content` of a TGS record: built as lists by the
parser; `repr_as_dict` overwrites them (through `vars(self)`, without
a copy) with their rendered strings. -/
inductive GroupsVal where
  | lst (gs : List String)
  | str (s : String)
  deriving DecidableEq, Repr

inductive ContentVal where
  | lst (ns : List FinNote)
  | str (s : String)
  deriving DecidableEq, Repr

structure CGMPatientTGS where
  pat_id : String
  first_name : String
  last_name : String
  birth_date : String
  kasse : String
  member_id : String
  groups : GroupsVal
  content : ContentVal
  deriving DecidableEq, Repr

namespace TGS

/-- One iteration of `ParsingContextTGS.parse_records`. -/
def parse_record (rec : List String) : Except PErr CGMPatientTGS := do
  let l0 ←
    match rec.get? 0 with
    | some l => pure l
    | none => throw PErr.indexError
  let caps0 ←
    match reSearch reTgsLine1 l0 with
    | some c => pure c
    | none => throw (PErr.failedGrepMatch (some rec))
  let l1 ←
    match rec.get? 1 with
    | some l => pure l
    | none => throw PErr.indexError
  let caps1 ←
    match reSearch reTgsLine2 l1 with
    | some c => pure c
    | none => throw (PErr.failedGrepMatch (some rec))
  let content ← parse_content (rec.drop 2)
  let bd ←
    match strptimeDmy4 ((getCap caps1 3).getD "") with
    | some d => pure d
    | none => throw PErr.valueError
  pure ⟨(getCap caps0 1).getD "", (getCap caps1 2).getD "", (getCap caps1 1).getD "", bd,
    (getCap caps1 4).getD "", (getCap caps1 5).getD "",
    GroupsVal.lst (pySplit ", " (pySlice1m1 ((getCap caps0 2).getD ""))),
    ContentVal.lst content⟩

/-- The `for rec in records` loop: records parsed in order, results
collected in order, the first exception aborting the whole parse. -/
def parse_records : List (List String) → Except PErr (List CGMPatientTGS)
  | [] => pure []
  | rec :: rest => do
    let r ← parse_record rec
    let rs ← parse_records rest
    pure (r :: rs)

end TGS

/-! ### Tabular rendering (`repr_as_dict`) -/

structure GofDict where
  pat_id : String
  first_name : String
  last_name : String
  birth_date : String
  billing_type : String
  quarter : String
  qyear : String
  ins_status : String
  vknr : String
  ktab : String
  content : String
  deriving DecidableEq, Repr

def renderGofNotice (n : GofNotice) : String :=
  "\t".intercalate [n.date, n.type, n.erfasser, n.text]

def renderGofContent (ns : List GofNotice) : String :=
  "\n".intercalate (ns.map renderGofNotice)

namespace GOF

/-- `CGMPatientGOF.repr_as_dict`: `vars(self)` is copied before the
`content` entry is replaced by its rendering, so the record itself is
returned unchanged. -/
def repr_as_dict (r : CGMPatientGOF) : GofDict × CGMPatientGOF :=
  (⟨r.pat_id, r.first_name, r.last_name, r.birth_date, r.billing_type, r.quarter,
    r.qyear, r.ins_status, r.vknr, r.ktab, renderGofContent r.content⟩, r)

end GOF

structure TgsDict where
  pat_id : String
  first_name : String
  last_name : String
  birth_date : String
  kasse : String
  member_id : String
  groups : String
  content : String
  deriving DecidableEq, Repr

/-- The `groups` branches of `CGMPatientTGS.repr_as_dict` on a list:
empty string for zero groups, the bare element for one, the
comma-space join for more. -/
def renderGroups (gs : List String) : String :=
  if gs.length = 0 then ""
  else if gs.length = 1 then gs.getD 0 ""
  else ", ".intercalate gs

/-- `note['date']` and friends: an attribute never captured is a
missing dict key, a `KeyError`. -/
def renderTgsNote (n : FinNote) : Except PErr String := do
  let d ← match n.date with | some d => pure d | none => throw PErr.keyError
  let erf ← match n.erfasser with | some x => pure x | none => throw PErr.keyError
  let sch ← match n.schein_typ with | some x => pure x | none => throw PErr.keyError
  let beh ← match n.behandler with | some x => pure x | none => throw PErr.keyError
  let fach ← match n.fachgebiet with | some x => pure x | none => throw PErr.keyError
  let zeil ← match n.zeilentyp with | some x => pure x | none => throw PErr.keyError
  pure ("\t".intercalate [d, erf, sch, beh, fach, zeil, n.text])

def renderTgsContent (ns : List FinNote) : Except PErr String := do
  let ls ← ns.mapM renderTgsNote
  pure ("\n".intercalate ls)

namespace TGS

/-- `CGMPatientTGS.repr_as_dict`: `inst_vars = vars(self)` is the
record's own attribute dict, taken without a copy, so the assignments
to `inst_vars['groups']` and `inst_vars['content']` overwrite the
record's fields with the rendered strings; the function returns the
dict together with the record as it stands afterwards.  On a record
whose fields were already overwritten (a second call), `len` and
indexing act on the strings: a one-character `groups` string indexes to
itself, a longer one is joined character by character, and iterating a
non-empty `content` string makes `note['date']` index a character with
a string — a `TypeError`. -/
def repr_as_dict (r : CGMPatientTGS) : Except PErr (TgsDict × CGMPatientTGS) := do
  let groupsStr ←
    match r.groups with
    | .lst gs => pure (renderGroups gs)
    | .str s =>
      pure (if s.length = 0 then ""
        else if s.length = 1 then s
        else ", ".intercalate (s.data.map (fun c => String.mk [c])))
  let contentStr ←
    match r.content with
    | .lst ns => renderTgsContent ns
    | .str s => if s = "" then pure "" else throw PErr.typeError
  pure (⟨r.pat_id, r.first_name, r.last_name, r.birth_date, r.kasse, r.member_id,
      groupsStr, contentStr⟩,
    { r with groups := GroupsVal.str groupsStr, content := ContentVal.str contentStr })

end TGS

/-! ### Format detection and the top level (`CGMParser`) -/

namespace GOF

/-- `ParsingContextGOF.HEADER`: 90 rule characters, `Eintrag` padded
to 88 columns, 90 rule characters. -/
def HEADER : String :=
  String.mk (List.replicate 90 '=') ++ "\n" ++ "Eintrag" ++
    String.mk (List.replicate 81 ' ') ++ "\n" ++
    String.mk (List.replicate 90 '=') ++ "\n"

end GOF

namespace TGS

/-- `ParsingContextTGS.HEADER`. -/
def HEADER : String :=
  String.mk (List.replicate 96 '=') ++ "\n" ++ "Textgruppenstatistik\n" ++
    String.mk (List.replicate 96 '=') ++ "\n"

end TGS

inductive Dialect where
  | gof
  | tgs
  deriving DecidableEq, Repr

/-- `CGMParser._determine_context`: the first three lines joined and
compared with the two banners; neither branch taken means the Python
function falls through and returns `None`. -/
def determine_context (raw : List String) : Option Dialect :=
  let h := String.join (raw.take 3)
  if h = GOF.HEADER then some Dialect.gof
  else if h = TGS.HEADER then some Dialect.tgs
  else none

inductive ParseResult where
  | gof (rs : List CGMPatientGOF)
  | tgs (rs : List CGMPatientTGS)
  deriving DecidableEq, Repr

/-- `CGMParser.__init__`: determine the context, separate the records,
parse them.  A `None` context makes `self.context.separate_records()`
raise `AttributeError` on `NoneType`, modelled as `noneContext`. -/
def CGMParser.run (raw : List String) : Except PErr ParseResult :=
  match determine_context raw with
  | none => .error PErr.noneContext
  | some .gof => (GOF.parse_records (GOF.separate_records raw)).map ParseResult.gof
  | some .tgs => (TGS.parse_records (TGS.separate_records raw)).map ParseResult.tgs

/-! ### Decidable equality for `Except` results -/

def exceptDecEq {E A : Type} [DecidableEq E] [DecidableEq A] : DecidableEq (Except E A) := by
  intro x y
  cases x <;> cases y
  case error.error a b =>
    exact if h : a = b then .isTrue (by rw [h]) else .isFalse (by intro hc; cases hc; exact h rfl)
  case error.ok a b => exact .isFalse (by intro hc; cases hc)
  case ok.error a b => exact .isFalse (by intro hc; cases hc)
  case ok.ok a b =>
    exact if h : a = b then .isTrue (by rw [h]) else .isFalse (by intro hc; cases hc; exact h rfl)

attribute [instance] exceptDecEq

/-! ### Concrete example inputs used across the claims -/

/-- The GOF identity line of the end-to-end example. -/
def gofIdLine : String := "12345 Mustermann, Erika   01.01.1980"

/-- The insurance line exactly as the example writes it. -/
def gofInsLineSpec : String := "AB12000 M 00123 00"

/-- The insurance line with whitespace between billing type and
quarter digits, as the pattern `([\w]+)\s+(\d)(\d{4})...` requires. -/
def gofInsLine : String := "AB 12000 M 00123 00"

def gofNoticeLine : String := "01.02.2023 Befund (xyz) erste Zeile"

def gofContLine : String := "zweite Zeile"

def tgsIdLine : String := "Patientennr. 123\n"

def tgsIdLineGrouped : String := "Patientennr. 123 (A, B)\n"

def tgsInfoLine : String := "Mustermann,Erika; * 01.01.1980, AOK, A123\n"

/-- A TGS content line setting the date and all five attributes at
their columns, with text from column 28. -/
def tgsNoteLine1 : String := "01.01.20 e   s b   f   z    Hello"

/-- A TGS content line re-capturing only `erfasser` (column 9). -/
def tgsNoteLine2 : String := "         X2                  World"

/-- Thirty word characters: one word spanning every attribute column. -/
def tgsRunLine : String := String.mk (List.replicate 30 'A')

/-- The single note parsed from `tgsNoteLine1`. -/
def tgsSampleNote : FinNote :=
  ⟨some "2020-01-01", some "e", some "s", some "b", some "f", some "z", "Hello"⟩

/-- A parsed TGS record with one fully attributed note, as produced on
`[tgsIdLine, tgsInfoLine, tgsNoteLine1]`. -/
def tgsSampleRec : CGMPatientTGS :=
  ⟨"123", "Erika", "Mustermann", "1980-01-01", "AOK", "A123", GroupsVal.lst [""],
    ContentVal.lst [tgsSampleNote]⟩

/-- The same record after `repr_as_dict` has overwritten its `groups`
and `content` fields in place. -/
def tgsSampleMut : CGMPatientTGS :=
  { tgsSampleRec with
    groups := GroupsVal.str "",
    content := ContentVal.str "2020-01-01\te\ts\tb\tf\tz\tHello" }

def tgsSampleDict : TgsDict :=
  ⟨"123", "Erika", "Mustermann", "1980-01-01", "AOK", "A123", "",
    "2020-01-01\te\ts\tb\tf\tz\tHello"⟩

/-! ### The six sticky fields of a TGS note

The five column attributes together with the date: each is re-captured
by a line exactly when its matcher fires on that line, and is
otherwise inherited, since a freshly started note is a copy of the
previous one with only the text buffer cleared. -/

inductive SField where
  | date
  | erfasser
  | schein_typ
  | behandler
  | fachgebiet
  | zeilentyp
  deriving DecidableEq, Repr

/-- The matcher through which a line would re-capture the field. -/
def SField.trig : SField → String → Option String
  | .date, l => matchDate l
  | .erfasser, l => matchOther TAttr.erfasser.col l
  | .schein_typ, l => matchOther TAttr.schein_typ.col l
  | .behandler, l => matchOther TAttr.behandler.col l
  | .fachgebiet, l => matchOther TAttr.fachgebiet.col l
  | .zeilentyp, l => matchOther TAttr.zeilentyp.col l

def SField.getF : SField → FinNote → Option String
  | .date, n => n.date
  | .erfasser, n => n.erfasser
  | .schein_typ, n => n.schein_typ
  | .behandler, n => n.behandler
  | .fachgebiet, n => n.fachgebiet
  | .zeilentyp, n => n.zeilentyp

def SField.getC : SField → NoteB → Option String
  | .date, n => n.date
  | .erfasser, n => n.erfasser
  | .schein_typ, n => n.schein_typ
  | .behandler, n => n.behandler
  | .fachgebiet, n => n.fachgebiet
  | .zeilentyp, n => n.zeilentyp

/-- Consecutive emitted notes inherit a field whenever none of the
later note's lines re-captures it. -/
def noteChain (f : SField) : List (FinNote × List String) → Prop
  | p :: q :: rest =>
    ((∀ l ∈ q.2, f.trig l = none) → f.getF q.1 = f.getF p.1) ∧ noteChain f (q :: rest)
  | _ => True

/-- Invariant of the TGS content fold: the emitted notes form a sticky
chain, and the current note inherits the last emitted note's field as
long as none of its own lines has re-captured the field. -/
def stickyInv (f : SField) (st : TState) : Prop :=
  noteChain f st.emitted ∧
    ∀ last, st.emitted.getLast? = some last →
      (∀ l ∈ st.curLines, f.trig l = none) → f.getC st.cur = f.getF last.1

/-- The parser state after processing `tgsRunLine` from the initial
state: every attribute captured as the word run from its column. -/
def tgsRunState : TState :=
  ⟨[], ⟨none, some "AAAAAAAAAAAAAAAAAAAAA", some "AAAAAAAAAAAAAAAAA",
    some "AAAAAAAAAAAAAAA", some "AAAAAAAAAAA", some "AAAAAAA", ["AA"]⟩,
    [tgsRunLine], false⟩

/-- The date-update stage of `tgsAttrStep`, on the success path. -/
def tgsDateUpd (line : String) (st : TState) : TState :=
  match (matchDate line).bind strptimeDmy2 with
  | some d => { st with cur := { st.cur with date := some d } }
  | none => st

/-- The attribute-update stage of `tgsAttrStep`. -/
def tgsMoUpd (a : TAttr) (line : String) (st : TState) : TState :=
  match matchOther a.col line with
  | some w => { st with cur := a.set w st.cur }
  | none => st

/-! ### Small rewriting helpers for `Except` computations -/

theorem okBind {α β : Type} (a : α) (f : α → Except PErr β) :
    (Except.ok a >>= f) = f a := rfl

theorem errBind {α β : Type} (e : PErr) (f : α → Except PErr β) :
    ((Except.error e : Except PErr α) >>= f) = Except.error e := rfl

theorem pureOk {α : Type} (a : α) : (pure a : Except PErr α) = Except.ok a := rfl

theorem throwErr {α : Type} (e : PErr) : (throw e : Except PErr α) = Except.error e := rfl

attribute [simp] okBind errBind pureOk throwErr

/-! ### Splitter length -/

theorem separateAux_length (delim : String → Bool) (l : List String) :
    ∀ cur, (separateAux delim l cur).length = l.countP delim + 1 := by
  induction l with
  | nil => intro cur; simp [separateAux]
  | cons x rest ih =>
    intro cur
    by_cases h : delim x
    · simp [separateAux, h, List.countP_cons, ih]
    · simp [separateAux, h, List.countP_cons, ih]

/-! ### Inversion and step lemmas for the TGS content fold -/

theorem exceptBindOk {α β : Type} {x : Except PErr α} {f : α → Except PErr β} {c : β}
    (h : (x >>= f) = Except.ok c) : ∃ b, x = Except.ok b ∧ f b = Except.ok c := by
  cases x with
  | ok b => exact ⟨b, rfl, h⟩
  | error e => simp [errBind] at h

theorem TAttr.get_set_same (a : TAttr) (w : String) (n : NoteB) :
    a.get (a.set w n) = some w := by
  cases a <;> rfl

theorem TAttr.get_set_other (a b : TAttr) (w : String) (n : NoteB) (h : b ≠ a) :
    b.get (a.set w n) = b.get n := by
  cases a <;> cases b <;> first | rfl | exact absurd rfl h

theorem TAttr.set_date (a : TAttr) (w : String) (n : NoteB) :
    (a.set w n).date = n.date := by
  cases a <;> rfl

theorem TAttr.set_text (a : TAttr) (w : String) (n : NoteB) :
    (a.set w n).text = n.text := by
  cases a <;> rfl

theorem tgsClose_get (b : TAttr) (st : TState) :
    b.get (tgsClose st).cur = b.get st.cur := by
  cases b <;> rfl

theorem tgsDateUpd_get (b : TAttr) (line : String) (st : TState) :
    b.get (tgsDateUpd line st).cur = b.get st.cur := by
  unfold tgsDateUpd
  cases h : (matchDate line).bind strptimeDmy2 <;> cases b <;> simp [TAttr.get]

theorem tgsDateUpd_struct (line : String) (st : TState) :
    (tgsDateUpd line st).emitted = st.emitted ∧
      (tgsDateUpd line st).curLines = st.curLines ∧
      (tgsDateUpd line st).cur.text = st.cur.text ∧
      (tgsDateUpd line st).newLine = st.newLine := by
  unfold tgsDateUpd
  cases h : (matchDate line).bind strptimeDmy2 <;> simp

theorem tgsDateUpd_date_none (line : String) (st : TState) (h : matchDate line = none) :
    (tgsDateUpd line st).cur.date = st.cur.date := by
  unfold tgsDateUpd
  rw [h]
  rfl

theorem tgsMoUpd_get_other (a b : TAttr) (line : String) (st : TState) (h : b ≠ a) :
    b.get (tgsMoUpd a line st).cur = b.get st.cur := by
  unfold tgsMoUpd
  cases hm : matchOther a.col line with
  | none => rfl
  | some w => simp [TAttr.get_set_other a b w _ h]

theorem tgsMoUpd_get_none (a : TAttr) (line : String) (st : TState)
    (h : matchOther a.col line = none) :
    (tgsMoUpd a line st).cur = st.cur := by
  unfold tgsMoUpd
  rw [h]

theorem tgsMoUpd_id (a : TAttr) (line : String) (st : TState)
    (h : matchOther a.col line = none) :
    tgsMoUpd a line st = st := by
  unfold tgsMoUpd
  rw [h]

theorem tgsDateUpd_id (line : String) (st : TState) (h : matchDate line = none) :
    tgsDateUpd line st = st := by
  unfold tgsDateUpd
  rw [h]
  rfl

theorem tgsMoUpd_get_some (a : TAttr) (line : String) (st : TState) (w : String)
    (h : matchOther a.col line = some w) :
    a.get (tgsMoUpd a line st).cur = some w := by
  unfold tgsMoUpd
  rw [h]
  exact TAttr.get_set_same a w st.cur

theorem tgsMoUpd_date (a : TAttr) (line : String) (st : TState) :
    (tgsMoUpd a line st).cur.date = st.cur.date := by
  unfold tgsMoUpd
  cases hm : matchOther a.col line with
  | none => rfl
  | some w => simp [TAttr.set_date]

theorem tgsMoUpd_struct (a : TAttr) (line : String) (st : TState) :
    (tgsMoUpd a line st).emitted = st.emitted ∧
      (tgsMoUpd a line st).curLines = st.curLines ∧
      (tgsMoUpd a line st).cur.text = st.cur.text ∧
      (tgsMoUpd a line st).newLine = st.newLine := by
  unfold tgsMoUpd
  cases hm : matchOther a.col line <;> simp [TAttr.set_text]

/-- On the success path one attribute step is the composite of the
conditional close, the date update and the attribute update. -/
theorem tgsAttrStep_ok_eq {line : String} {st st' : TState} {a : TAttr}
    (h : tgsAttrStep line st a = Except.ok st') :
    st' = tgsMoUpd a line (tgsDateUpd line
      (if st.newLine = false ∧ ((matchDate line).isSome ∨ (matchOther a.col line).isSome)
        then tgsClose st else st)) := by
  rcases hmd : matchDate line with _ | ds
  · rcases hmo : matchOther a.col line with _ | w <;>
      simp_all [tgsAttrStep, tgsDateUpd, tgsMoUpd, hmd, hmo]
  · rcases hsp : strptimeDmy2 ds with _ | d
    · simp_all [tgsAttrStep, hmd, hsp]
    · rcases hmo : matchOther a.col line with _ | w <;>
        simp_all [tgsAttrStep, tgsDateUpd, tgsMoUpd, hmd, hsp, hmo]

theorem tgsCondClose_get (b : TAttr) (st : TState) (c : Prop) [Decidable c] :
    b.get (if c then tgsClose st else st).cur = b.get st.cur := by
  split
  · exact tgsClose_get b st
  · rfl

theorem tgsCondClose_date (st : TState) (c : Prop) [Decidable c] :
    (if c then tgsClose st else st).cur.date = st.cur.date := by
  split <;> rfl

/-- Attribute `b ≠ a` is untouched by the step for `a`. -/
theorem tgsAttrStep_get_other {line : String} {st st' : TState} {a : TAttr}
    (h : tgsAttrStep line st a = Except.ok st') (b : TAttr) (hb : b ≠ a) :
    b.get st'.cur = b.get st.cur := by
  rw [tgsAttrStep_ok_eq h, tgsMoUpd_get_other a b line _ hb, tgsDateUpd_get,
    tgsCondClose_get]

/-- The stepped attribute is untouched when its column does not match. -/
theorem tgsAttrStep_get_none {line : String} {st st' : TState} {a : TAttr}
    (h : tgsAttrStep line st a = Except.ok st') (b : TAttr)
    (hm : matchOther a.col line = none) :
    b.get st'.cur = b.get st.cur := by
  rw [tgsAttrStep_ok_eq h, tgsMoUpd_get_none a line _ hm, tgsDateUpd_get,
    tgsCondClose_get]

/-- The stepped attribute is re-captured when its column matches. -/
theorem tgsAttrStep_get_some {line : String} {st st' : TState} {a : TAttr} {w : String}
    (h : tgsAttrStep line st a = Except.ok st')
    (hm : matchOther a.col line = some w) :
    a.get st'.cur = some w := by
  rw [tgsAttrStep_ok_eq h, tgsMoUpd_get_some a line _ w hm]

/-- The date is untouched when the line carries no date. -/
theorem tgsAttrStep_date_none {line : String} {st st' : TState} {a : TAttr}
    (h : tgsAttrStep line st a = Except.ok st') (hmd : matchDate line = none) :
    st'.cur.date = st.cur.date := by
  rw [tgsAttrStep_ok_eq h, tgsMoUpd_date, tgsDateUpd_date_none _ _ hmd, tgsCondClose_date]

/-- On the first line (`new_line` still true) nothing is emitted. -/
theorem tgsAttrStep_newLine_true {line : String} {st st' : TState} {a : TAttr}
    (h : tgsAttrStep line st a = Except.ok st') (hnl : st.newLine = true) :
    st'.emitted = st.emitted ∧ st'.curLines = st.curLines ∧ st'.newLine = true := by
  rw [tgsAttrStep_ok_eq h]
  have hc : ¬(st.newLine = false ∧ ((matchDate line).isSome ∨ (matchOther a.col line).isSome)) := by
    rw [hnl]; simp
  rw [if_neg hc]
  obtain ⟨hde, hdc, -, hdn⟩ := tgsDateUpd_struct line st
  obtain ⟨hme, hmc, -, hmn⟩ := tgsMoUpd_struct a line (tgsDateUpd line st)
  exact ⟨hme.trans hde, hmc.trans hdc, (hmn.trans hdn).trans hnl⟩

/-- On a later line with neither a date nor a column match the step is
the identity. -/
theorem tgsAttrStep_id {line : String} {st st' : TState} {a : TAttr}
    (h : tgsAttrStep line st a = Except.ok st') (hmd : matchDate line = none)
    (hmo : matchOther a.col line = none) :
    st' = st := by
  have hc : ¬(st.newLine = false ∧
      ((matchDate line).isSome ∨ (matchOther a.col line).isSome)) := by
    simp [hmd, hmo]
  rw [tgsAttrStep_ok_eq h, if_neg hc, tgsDateUpd_id line _ hmd, tgsMoUpd_id a line _ hmo]

/-- On a later line, a date or column match emits the current note. -/
theorem tgsAttrStep_close {line : String} {st st' : TState} {a : TAttr}
    (h : tgsAttrStep line st a = Except.ok st') (hnl : st.newLine = false)
    (hm : (matchDate line).isSome = true ∨ (matchOther a.col line).isSome = true) :
    st'.emitted = st.emitted ++ [(finalizeNote st.cur, st.curLines)] ∧
      st'.curLines = [] ∧ st'.newLine = true := by
  rw [tgsAttrStep_ok_eq h, if_pos ⟨hnl, hm⟩]
  obtain ⟨hde, hdc, -, hdn⟩ := tgsDateUpd_struct line (tgsClose st)
  obtain ⟨hme, hmc, -, hmn⟩ := tgsMoUpd_struct a line (tgsDateUpd line (tgsClose st))
  exact ⟨hme.trans hde, hmc.trans hdc, (hmn.trans hdn)⟩

/-- Behaviour of the fold over an attribute list: an attribute not in
the list, or whose column does not match, is preserved; an attribute in
the list whose column matches ends up re-captured; the date is
preserved when the line has none; and the fold either leaves the
state unchanged (no match anywhere, or first line) or emits exactly the
incoming current note. -/
theorem tgsAttrFold_ok {line : String} :
    ∀ (as : List TAttr) (st st' : TState),
    List.foldlM (tgsAttrStep line) st as = Except.ok st' →
    (∀ b : TAttr, b ∉ as → b.get st'.cur = b.get st.cur) ∧
    (∀ b : TAttr, matchOther b.col line = none → b.get st'.cur = b.get st.cur) ∧
    (∀ b : TAttr, ∀ w, b ∈ as → matchOther b.col line = some w → b.get st'.cur = some w) ∧
    (matchDate line = none → st'.cur.date = st.cur.date) ∧
    (st.newLine = true →
      st'.emitted = st.emitted ∧ st'.curLines = st.curLines ∧ st'.newLine = true) ∧
    (st.newLine = false →
      st' = st ∨
      (st'.emitted = st.emitted ++ [(finalizeNote st.cur, st.curLines)] ∧
        st'.curLines = [] ∧ st'.newLine = true)) := by
  intro as
  induction as with
  | nil =>
    intro st st' h
    simp only [List.foldlM_nil, pureOk, Except.ok.injEq] at h
    subst h
    exact ⟨fun b _ => rfl, fun b _ => rfl, fun b w hb _ => absurd hb (List.not_mem_nil b),
      fun _ => rfl, fun hnl => ⟨rfl, rfl, hnl⟩, fun _ => Or.inl rfl⟩
  | cons a rest ih =>
    intro st st' h
    rw [List.foldlM_cons] at h
    obtain ⟨st1, h1, h2⟩ := exceptBindOk h
    obtain ⟨ihNotMem, ihNone, ihSome, ihDate, ihTrue, ihFalse⟩ := ih st1 st' h2
    refine ⟨?_, ?_, ?_, ?_, ?_, ?_⟩
    · intro b hb
      have hba : b ≠ a := fun he => hb (he ▸ List.mem_cons_self a rest)
      have hbr : b ∉ rest := fun hm => hb (List.mem_cons_of_mem a hm)
      rw [ihNotMem b hbr, tgsAttrStep_get_other h1 b hba]
    · intro b hm
      rw [ihNone b hm]
      by_cases hba : b = a
      · subst hba; exact tgsAttrStep_get_none h1 b hm
      · exact tgsAttrStep_get_other h1 b hba
    · intro b w hb hm
      rcases List.mem_cons.mp hb with hba | hbr
      · subst hba
        by_cases hbr2 : b ∈ rest
        · exact ihSome b w hbr2 hm
        · rw [ihNotMem b hbr2]
          exact tgsAttrStep_get_some h1 hm
      · exact ihSome b w hbr hm
    · intro hmd
      rw [ihDate hmd, tgsAttrStep_date_none h1 hmd]
    · intro hnl
      obtain ⟨he, hc, hn⟩ := tgsAttrStep_newLine_true h1 hnl
      obtain ⟨he2, hc2, hn2⟩ := ihTrue hn
      exact ⟨he2.trans he, hc2.trans hc, hn2⟩
    · intro hnl
      by_cases hmd : matchDate line = none
      · by_cases hmo : matchOther a.col line = none
        · have hid := tgsAttrStep_id h1 hmd hmo
          subst hid
          exact ihFalse hnl
        · have hm : (matchDate line).isSome = true ∨ (matchOther a.col line).isSome = true :=
            Or.inr (Option.isSome_iff_ne_none.mpr hmo)
          obtain ⟨he, hc, hn⟩ := tgsAttrStep_close h1 hnl hm
          obtain ⟨he2, hc2, hn2⟩ := ihTrue hn
          exact Or.inr ⟨he2.trans he, hc2.trans hc, hn2⟩
      · have hm : (matchDate line).isSome = true ∨ (matchOther a.col line).isSome = true :=
          Or.inl (Option.isSome_iff_ne_none.mpr hmd)
        obtain ⟨he, hc, hn⟩ := tgsAttrStep_close h1 hnl hm
        obtain ⟨he2, hc2, hn2⟩ := ihTrue hn
        exact Or.inr ⟨he2.trans he, hc2.trans hc, hn2⟩

theorem tgsLinePost_get (b : TAttr) (line : String) (st : TState) :
    b.get (tgsLinePost line st).cur = b.get st.cur := by
  unfold tgsLinePost
  cases hm : matchText line <;> cases b <;> simp [TAttr.get]

theorem tgsLinePost_date (line : String) (st : TState) :
    (tgsLinePost line st).cur.date = st.cur.date := by
  unfold tgsLinePost
  cases hm : matchText line <;> simp

theorem tgsLinePost_emitted (line : String) (st : TState) :
    (tgsLinePost line st).emitted = st.emitted := by
  unfold tgsLinePost
  cases hm : matchText line <;> simp

theorem tgsLinePost_curLines (line : String) (st : TState) :
    (tgsLinePost line st).curLines = st.curLines ++ [line] := by
  unfold tgsLinePost
  cases hm : matchText line <;> simp

/-- Field behaviour of one full line step: every column attribute is
re-captured exactly when its own column matches and kept otherwise,
the date is kept when the line has none, and the step either just
extends the current note's line set or emits the incoming note and
starts the new one on this very line. -/
theorem tgsLineStep_ok {st : TState} {line : String} {st' : TState}
    (h : tgsLineStep st line = Except.ok st') :
    (∀ b : TAttr, matchOther b.col line = none → b.get st'.cur = b.get st.cur) ∧
    (∀ b : TAttr, ∀ w, matchOther b.col line = some w → b.get st'.cur = some w) ∧
    (matchDate line = none → st'.cur.date = st.cur.date) ∧
    ((st'.emitted = st.emitted ∧ st'.curLines = st.curLines ++ [line]) ∨
      (st'.emitted = st.emitted ++ [(finalizeNote st.cur, st.curLines)] ∧
        st'.curLines = [line])) := by
  unfold tgsLineStep at h
  obtain ⟨st1, h1, h2⟩ := exceptBindOk h
  have hpost : st' = tgsLinePost line st1 := by
    simp only [pureOk, Except.ok.injEq] at h2
    exact h2.symm
  obtain ⟨fNotMem, fNone, fSome, fDate, fTrue, fFalse⟩ :=
    tgsAttrFold_ok TGS_INDENT_LEVELS st st1 h1
  have hmem : ∀ b : TAttr, b ∈ TGS_INDENT_LEVELS := by
    intro b; cases b <;> simp [TGS_INDENT_LEVELS]
  subst hpost
  refine ⟨?_, ?_, ?_, ?_⟩
  · intro b hm; rw [tgsLinePost_get, fNone b hm]
  · intro b w hm; rw [tgsLinePost_get, fSome b w (hmem b) hm]
  · intro hmd; rw [tgsLinePost_date, fDate hmd]
  · cases hnl : st.newLine with
    | false =>
      rcases fFalse hnl with hid | ⟨he, hc, -⟩
      · exact Or.inl ⟨by rw [tgsLinePost_emitted, hid], by rw [tgsLinePost_curLines, hid]⟩
      · refine Or.inr ⟨by rw [tgsLinePost_emitted, he], ?_⟩
        rw [tgsLinePost_curLines, hc]
        rfl
    | true =>
      obtain ⟨he, hc, -⟩ := fTrue hnl
      exact Or.inl ⟨by rw [tgsLinePost_emitted, he], by rw [tgsLinePost_curLines, hc]⟩

theorem getF_finalize (f : SField) (n : NoteB) :
    f.getF (finalizeNote n) = f.getC n := by
  cases f <;> rfl

/-- Extending a sticky chain by one note that inherits from the last. -/
theorem noteChain_append (f : SField) :
    ∀ (l : List (FinNote × List String)) (x : FinNote × List String),
    noteChain f l →
    (∀ last, l.getLast? = some last →
      (∀ s ∈ x.2, f.trig s = none) → f.getF x.1 = f.getF last.1) →
    noteChain f (l ++ [x]) := by
  intro l
  induction l with
  | nil => intro x _ _; trivial
  | cons p rest ih =>
    intro x hc hlast
    cases rest with
    | nil =>
      refine ⟨fun hn => hlast p rfl hn, trivial⟩
    | cons q rest2 =>
      obtain ⟨hpq, hrest⟩ := hc
      refine ⟨hpq, ih x hrest ?_⟩
      intro last hl hs
      apply hlast
      · rw [List.getLast?_cons_cons]
        exact hl
      · exact hs

/-- The chain property read off at consecutive indices. -/
theorem noteChain_get? (f : SField) :
    ∀ (l : List (FinNote × List String)), noteChain f l →
    ∀ (i : Nat) (p q : FinNote × List String), l.get? i = some p →
    l.get? (i + 1) = some q →
    (∀ s ∈ q.2, f.trig s = none) → f.getF q.1 = f.getF p.1 := by
  intro l
  induction l with
  | nil => intro _ i p q hp _ _; simp at hp
  | cons x rest ih =>
    intro hc i p q hp hq hn
    cases rest with
    | nil => cases i <;> simp at hq
    | cons y rest2 =>
      obtain ⟨hxy, hrest⟩ := hc
      cases i with
      | zero =>
        simp only [List.get?_cons_zero, Option.some.injEq] at hp
        simp only [List.get?_cons_succ, List.get?_cons_zero, Option.some.injEq] at hq
        subst hp
        subst hq
        exact hxy hn
      | succ j =>
        simp only [List.get?_cons_succ] at hp hq
        exact ih hrest j p q hp hq hn

/-- One line step preserves the sticky invariant. -/
theorem stickyInv_step (f : SField) {st st' : TState} {line : String}
    (h : tgsLineStep st line = Except.ok st') (hI : stickyInv f st) :
    stickyInv f st' := by
  obtain ⟨hchain, hinherit⟩ := hI
  obtain ⟨sNone, sSome, sDate, sStruct⟩ := tgsLineStep_ok h
  have hpres : f.trig line = none → f.getC st'.cur = f.getC st.cur := by
    cases f with
    | date => exact sDate
    | erfasser => exact sNone TAttr.erfasser
    | schein_typ => exact sNone TAttr.schein_typ
    | behandler => exact sNone TAttr.behandler
    | fachgebiet => exact sNone TAttr.fachgebiet
    | zeilentyp => exact sNone TAttr.zeilentyp
  rcases sStruct with ⟨he, hc⟩ | ⟨he, hc⟩
  · constructor
    · rw [he]; exact hchain
    · intro last hl hn
      rw [he] at hl
      rw [hc] at hn
      have hline : f.trig line = none :=
        hn line (List.mem_append_right _ (List.mem_singleton.mpr rfl))
      have hold : ∀ s ∈ st.curLines, f.trig s = none :=
        fun s hs => hn s (List.mem_append_left _ hs)
      rw [hpres hline]
      exact hinherit last hl hold
  · constructor
    · rw [he]
      apply noteChain_append f st.emitted (finalizeNote st.cur, st.curLines) hchain
      intro last hl hn
      rw [getF_finalize]
      exact hinherit last hl hn
    · intro last hl hn
      rw [he, List.getLast?_concat] at hl
      have hlast : (finalizeNote st.cur, st.curLines) = last := Option.some.inj hl
      rw [hc] at hn
      have hline : f.trig line = none := hn line (List.mem_singleton.mpr rfl)
      rw [hpres hline, ← hlast, getF_finalize]

/-- The whole content fold preserves the sticky invariant. -/
theorem stickyInv_fold (f : SField) :
    ∀ (lines : List String) (st st' : TState),
    List.foldlM tgsLineStep st lines = Except.ok st' → stickyInv f st → stickyInv f st' := by
  intro lines
  induction lines with
  | nil =>
    intro st st' h hI
    simp only [List.foldlM_nil, pureOk, Except.ok.injEq] at h
    exact h ▸ hI
  | cons line rest ih =>
    intro st st' h hI
    rw [List.foldlM_cons] at h
    obtain ⟨st1, h1, h2⟩ := exceptBindOk h
    exact ih st1 st' h2 (stickyInv_step f h1 hI)

/-! ## The claims -/

/-- Claim C1 (counterexample).  The end-to-end example record of the
spec does not parse: the insurance line `AB12000 M 00123 00` has no
whitespace between the billing type and the quarter digits, so the
line-2 pattern `([\w]+)\s+(\d)(\d{4})\s+([MFR]*)\s+(\d*)\s+(\d{2})`
finds no match anywhere in it and the parse raises `FailedGrepMatch`
(at the raise site that formats no record into its message) instead of
succeeding. -/
theorem c1_counterexample :
    GOF.parse_records [[gofIdLine, gofInsLineSpec, gofNoticeLine, gofContLine]] =
      Except.error (PErr.failedGrepMatch none) := by rfl

/-- Claim C1 (corrected).  With whitespace inserted between billing
type and quarter digits (`AB 12000 M 00123 00`) the record parses to
the stated fields, except that (a) `first_name` is `"Erika  "` — the
greedy name class `[\w .-]+` keeps two of the three padding spaces —
and (b) the single notice's text is `"zweite Zeile"` only: a line that
starts a new notice contributes nothing to the text buffer (only
non-matching lines are appended), so `"erste Zeile"` is dropped. -/
theorem c1_amended :
    GOF.parse_records [[gofIdLine, gofInsLine, gofNoticeLine, gofContLine]] =
      Except.ok [⟨"12345", "Erika  ", "Mustermann", "1980-01-01", "AB", "1", "2000", "M",
        "00123", "00", [⟨"2023-02-01", "Befund", "xyz", "zweite Zeile"⟩]⟩] := by rfl

/-- Claim C2 (code_bug).  When the first three joined lines match
neither banner, `_determine_context` falls through both branches and
returns `None`; `CGMParser.__init__` then calls
`self.context.separate_records()` on `None` and dies with an
`AttributeError` — there is no `UnrecognizedFormat` error anywhere in
the code.  The theorem evaluates the embedded pipeline at such input:
the run fails with the `None`-context error before any record
parsing. -/
theorem c2_no_banner_none_context (raw : List String)
    (h1 : String.join (raw.take 3) ≠ GOF.HEADER)
    (h2 : String.join (raw.take 3) ≠ TGS.HEADER) :
    CGMParser.run raw = Except.error PErr.noneContext := by
  unfold CGMParser.run determine_context
  simp [h1, h2]

/-- Witness for C2 at a concrete input. -/
theorem c2_no_banner_none_context_witness :
    String.join (["foo\n", "bar\n", "baz\n"].take 3) ≠ GOF.HEADER ∧
      CGMParser.run ["foo\n", "bar\n", "baz\n"] = Except.error PErr.noneContext :=
  ⟨by decide, c2_no_banner_none_context ["foo\n", "bar\n", "baz\n"] (by decide) (by decide)⟩

/-- Claim C3 (confirmed).  On valid GOF input the fourth raw line is
the first record delimiter (the constructor drops `raw_input[4:]` on
that assumption); under that hypothesis the number of blocks the
splitter emits equals the number of delimiter lines in the stream
after header stripping: every delimiter closes the current buffer and
the final buffer is appended even without a trailing delimiter. -/
theorem c3_record_count (raw : List String) (l : String)
    (h3 : raw.get? 3 = some l) (hd : isGofDelim l = true) :
    (GOF.separate_records raw).length = (raw.drop 3).countP isGofDelim := by
  obtain ⟨hlt, hget⟩ := List.get?_eq_some.mp h3
  have hdrop : raw.drop 3 = l :: raw.drop 4 := by
    rw [List.drop_eq_getElem_cons hlt]
    rw [show raw[3] = l from hget]
  rw [hdrop, List.countP_cons]
  simp [GOF.separate_records, separateAux_length, hd]

set_option maxRecDepth 4000 in
/-- Witness for C3 at a concrete input: two records, two delimiter
lines after header stripping. -/
theorem c3_record_count_witness :
    (["h1", "h2", "h3", gofDelim, "a", gofDelim, "b"].get? 3 = some gofDelim) ∧
      (GOF.separate_records ["h1", "h2", "h3", gofDelim, "a", gofDelim, "b"]).length =
        (["h1", "h2", "h3", gofDelim, "a", gofDelim, "b"].drop 3).countP isGofDelim :=
  ⟨by rfl, c3_record_count _ gofDelim (by rfl) (by decide)⟩

/-- Claim C7 (counterexample).  A ChartStatistics record whose first
line carries no trailing parenthesized list parses with
`groups = [""]` — Python's `''.split(', ')` yields a one-element list
holding the empty string — not the empty sequence. -/
theorem c7_counterexample :
    TGS.parse_records [[tgsIdLine, tgsInfoLine]] =
        Except.ok [⟨"123", "Erika", "Mustermann", "1980-01-01", "AOK", "A123",
          GroupsVal.lst [""], ContentVal.lst [⟨none, none, none, none, none, none, ""⟩]⟩] ∧
      GroupsVal.lst [""] ≠ GroupsVal.lst [] := ⟨by rfl, by decide⟩

/-- Claim C7 (corrected).  Without a parenthesized list the parsed
`groups` field is the one-element sequence `[""]` (never the empty
sequence); its rendered value is still the empty string, through the
one-element branch; and the rendering branches are as stated: `""`
for zero groups, the bare value for one, the comma-space join for
more. -/
theorem c7_amended :
    (TGS.parse_records [[tgsIdLine, tgsInfoLine]]).map (fun rs => rs.map CGMPatientTGS.groups) =
        Except.ok [GroupsVal.lst [""]] ∧
      renderGroups [""] = "" ∧ renderGroups [] = "" ∧ renderGroups ["A"] = "A" ∧
      renderGroups ["A", "B"] = "A, B" ∧
      (TGS.parse_records [[tgsIdLineGrouped, tgsInfoLine]]).map (fun rs => rs.map CGMPatientTGS.groups) =
        Except.ok [GroupsVal.lst ["A", "B"]] := by
  refine ⟨by rfl, by rfl, by rfl, by rfl, by rfl, by rfl⟩

/-- Claim C9 (counterexample).  A GOF record whose first line matches
but whose second (insurance) line does not is rejected with
`FailedGrepMatch('no match of insurance information!')` — a message
that carries no record, unlike the other three raise sites, so the
error does not attach the offending block. -/
theorem c9_counterexample :
    GOF.parse_records [[gofIdLine, "garbage!!!"]] =
        Except.error (PErr.failedGrepMatch none) ∧
      PErr.failedGrepMatch none ≠ PErr.failedGrepMatch (some [gofIdLine, "garbage!!!"]) :=
  ⟨by rfl, by decide⟩

/-- Claim C9 (corrected).  A header-line pattern miss on either line,
in either dialect, raises `FailedGrepMatch` and aborts the whole parse
with no partial result, whatever records follow; three of the four
raise sites attach the offending raw record block, but the GOF
line-2 site raises with a message that carries no record. -/
theorem c9_amended :
    (∀ l0 rest tl, reSearch reGofLine1 l0 = none →
        GOF.parse_records ((l0 :: rest) :: tl) =
          Except.error (PErr.failedGrepMatch (some (l0 :: rest)))) ∧
    (∀ l0 l1 rest tl, (reSearch reGofLine1 l0).isSome = true →
        reSearch reGofLine2 l1 = none →
        GOF.parse_records ((l0 :: l1 :: rest) :: tl) =
          Except.error (PErr.failedGrepMatch none)) ∧
    (∀ l0 rest tl, reSearch reTgsLine1 l0 = none →
        TGS.parse_records ((l0 :: rest) :: tl) =
          Except.error (PErr.failedGrepMatch (some (l0 :: rest)))) ∧
    (∀ l0 l1 rest tl, (reSearch reTgsLine1 l0).isSome = true →
        reSearch reTgsLine2 l1 = none →
        TGS.parse_records ((l0 :: l1 :: rest) :: tl) =
          Except.error (PErr.failedGrepMatch (some (l0 :: l1 :: rest)))) := by
  refine ⟨?_, ?_, ?_, ?_⟩
  · intro l0 rest tl h
    simp [GOF.parse_records, GOF.parse_record, h]
  · intro l0 l1 rest tl h0 h1
    obtain ⟨c0, hc0⟩ := Option.isSome_iff_exists.mp h0
    simp [GOF.parse_records, GOF.parse_record, hc0, h1]
  · intro l0 rest tl h
    simp [TGS.parse_records, TGS.parse_record, h]
  · intro l0 l1 rest tl h0 h1
    obtain ⟨c0, hc0⟩ := Option.isSome_iff_exists.mp h0
    simp [TGS.parse_records, TGS.parse_record, hc0, h1]

/-- Witness for C9: all four raise sites exercised concretely. -/
theorem c9_amended_witness :
    GOF.parse_records [["garbage!!!"]] =
        Except.error (PErr.failedGrepMatch (some ["garbage!!!"])) ∧
      GOF.parse_records [[gofIdLine, "garbage!!!", "x"]] =
        Except.error (PErr.failedGrepMatch none) ∧
      TGS.parse_records [["garbage!!!"]] =
        Except.error (PErr.failedGrepMatch (some ["garbage!!!"])) ∧
      TGS.parse_records [[tgsIdLine, "garbage!!!"]] =
        Except.error (PErr.failedGrepMatch (some [tgsIdLine, "garbage!!!"])) :=
  ⟨c9_amended.1 "garbage!!!" [] [] (by rfl),
    c9_amended.2.1 gofIdLine "garbage!!!" ["x"] [] (by rfl) (by rfl),
    c9_amended.2.2.1 "garbage!!!" [] [] (by rfl),
    c9_amended.2.2.2 tgsIdLine "garbage!!!" [] [] (by rfl) (by rfl)⟩

/-- Claim C10 (counterexample).  Not every block with fewer than two
lines dies with the out-of-range access: a one-line block whose single
line fails the line-1 pattern is rejected by the documented
pattern-match error (`FailedGrepMatch`, record attached) before
`rec[1]` is ever evaluated. -/
theorem c10_counterexample :
    (["xyz\n"] : List String).length < 2 ∧
      GOF.parse_records [["xyz\n"]] =
        Except.error (PErr.failedGrepMatch (some ["xyz\n"])) ∧
      PErr.failedGrepMatch (some ["xyz\n"]) ≠ PErr.indexError :=
  ⟨by decide, by rfl, by decide⟩

/-- Claim C10 (corrected).  `parse_records` reads `rec[0]`
unconditionally and `rec[1]` once line 1 has matched, so totality
needs two lines per block: the empty block — which the splitter emits
for two consecutive delimiter lines and never discards — fails with
the out-of-range list access, as does a one-line block whose line
matches the line-1 pattern; but a one-line block whose line does not
match fails with the pattern-match error instead. -/
theorem c10_amended :
    (∀ tl, GOF.parse_records ([] :: tl) = Except.error PErr.indexError) ∧
    (∀ l tl, (reSearch reGofLine1 l).isSome = true →
        GOF.parse_records ([l] :: tl) = Except.error PErr.indexError) ∧
    (∀ a rest, isGofDelim a = true →
        separateAux isGofDelim (a :: rest) [] = [] :: separateAux isGofDelim rest []) := by
  refine ⟨?_, ?_, ?_⟩
  · intro tl
    simp [GOF.parse_records, GOF.parse_record]
  · intro l tl h
    obtain ⟨c0, hc0⟩ := Option.isSome_iff_exists.mp h
    simp [GOF.parse_records, GOF.parse_record, hc0]
  · intro a rest h
    simp [separateAux, h]

set_option maxRecDepth 4000 in
/-- Witness for C10: the empty block from two consecutive delimiters,
and a one-line block whose line matches the identity pattern. -/
theorem c10_amended_witness :
    GOF.parse_records [[], ["x"]] = Except.error PErr.indexError ∧
      GOF.parse_records [[gofIdLine]] = Except.error PErr.indexError ∧
      separateAux isGofDelim [gofDelim, gofDelim] [] =
        [] :: separateAux isGofDelim [gofDelim] [] :=
  ⟨c10_amended.1 [["x"]],
    c10_amended.2.1 gofIdLine [] (by rfl),
    c10_amended.2.2 gofDelim [gofDelim] (by decide)⟩

/-- Claim C5 (counterexample).  A GOF record block holding only the
two header lines crashes the content parser: `ParsingContextGOF`'s
`_parse_content` never initialises `current_content` before its loop,
so the flush after the (empty) loop raises `UnboundLocalError` instead
of producing an empty-text notice. -/
theorem c5_counterexample :
    GOF.parse_records [[gofIdLine, gofInsLine]] = Except.error PErr.unboundLocal := by rfl

/-- Claim C5 (corrected).  Only the TGS dialect initialises the
content buffer up front: a TGS record block of just the two header
lines yields exactly one annotation entry with empty text (and no
attribute keys), while the same shape in the GOF dialect raises
`UnboundLocalError` because the buffer is created only by the first
notice-start line. -/
theorem c5_amended :
    (∀ l0 l1, (reSearch reTgsLine1 l0).isSome = true →
        ((reSearch reTgsLine2 l1).bind
          (fun c => strptimeDmy4 ((getCap c 3).getD ""))).isSome = true →
        ∃ r, TGS.parse_records [[l0, l1]] = Except.ok [r] ∧
          r.content = ContentVal.lst [⟨none, none, none, none, none, none, ""⟩]) ∧
    (∀ l0 l1, (reSearch reGofLine1 l0).isSome = true →
        (reSearch reGofLine2 l1).isSome = true →
        GOF.parse_records [[l0, l1]] = Except.error PErr.unboundLocal) := by
  constructor
  · intro l0 l1 h0 h1
    obtain ⟨c0, hc0⟩ := Option.isSome_iff_exists.mp h0
    rcases hc1 : reSearch reTgsLine2 l1 with _ | c1
    · rw [hc1] at h1; simp at h1
    · rw [hc1] at h1
      simp only [Option.some_bind] at h1
      obtain ⟨bd, hbd⟩ := Option.isSome_iff_exists.mp h1
      refine ⟨⟨(getCap c0 1).getD "", (getCap c1 2).getD "", (getCap c1 1).getD "", bd,
        (getCap c1 4).getD "", (getCap c1 5).getD "",
        GroupsVal.lst (pySplit ", " (pySlice1m1 ((getCap c0 2).getD ""))),
        ContentVal.lst [⟨none, none, none, none, none, none, ""⟩]⟩, ?_, rfl⟩
      simp [TGS.parse_records, TGS.parse_record, hc0, hc1, hbd, TGS.parse_content,
        TGS.parse_contentI, tgsInit, finalizeNote, Except.map, String.intercalate]
  · intro l0 l1 h0 h1
    obtain ⟨c0, hc0⟩ := Option.isSome_iff_exists.mp h0
    obtain ⟨c1, hc1⟩ := Option.isSome_iff_exists.mp h1
    simp [GOF.parse_records, GOF.parse_record, hc0, hc1, GOF.parse_content]

/-- Witness for C5: the two-header-line block in both dialects. -/
theorem c5_amended_witness :
    (∃ r, TGS.parse_records [[tgsIdLine, tgsInfoLine]] = Except.ok [r] ∧
        r.content = ContentVal.lst [⟨none, none, none, none, none, none, ""⟩]) ∧
      GOF.parse_records [[gofIdLine, gofInsLine]] = Except.error PErr.unboundLocal :=
  ⟨c5_amended.1 tgsIdLine tgsInfoLine (by decide) (by decide),
    c5_amended.2 gofIdLine gofInsLine (by decide) (by decide)⟩

/-- Claim C6 (counterexample).  A parsed TGS record is mutated by the
flattening operation: `repr_as_dict` takes `vars(self)` without a
copy, so the record's `groups` and `content` become their rendered
strings; the record afterwards differs from its parsed value and a
second `repr_as_dict` call raises `TypeError` while iterating the
content string. -/
theorem c6_counterexample :
    TGS.parse_records [[tgsIdLine, tgsInfoLine, tgsNoteLine1]] = Except.ok [tgsSampleRec] ∧
      TGS.repr_as_dict tgsSampleRec = Except.ok (tgsSampleDict, tgsSampleMut) ∧
      tgsSampleMut ≠ tgsSampleRec ∧
      TGS.repr_as_dict tgsSampleMut = Except.error PErr.typeError :=
  ⟨by rfl, by decide, by decide, by decide⟩

/-- Claim C6 (corrected).  Rendering is free of record mutation only in
the GOF variant, whose `repr_as_dict` copies the attribute dict: the
record comes back unchanged and a repeated call gives the same dict.
The TGS variant overwrites `groups` and `content` with their rendered
strings, so the record no longer holds its parsed values and a second
call fails with `TypeError` whenever the rendered content string is
non-empty (it always is for at least one note). -/
theorem c6_amended :
    (∀ g : CGMPatientGOF, (GOF.repr_as_dict g).2 = g) ∧
    (∀ g : CGMPatientGOF,
      (GOF.repr_as_dict (GOF.repr_as_dict g).2).1 = (GOF.repr_as_dict g).1) ∧
    (∀ (r : CGMPatientTGS) gs ns s, r.groups = GroupsVal.lst gs →
      r.content = ContentVal.lst ns → renderTgsContent ns = Except.ok s → s ≠ "" →
      TGS.repr_as_dict r =
          Except.ok (⟨r.pat_id, r.first_name, r.last_name, r.birth_date, r.kasse,
            r.member_id, renderGroups gs, s⟩,
            { r with groups := GroupsVal.str (renderGroups gs), content := ContentVal.str s }) ∧
        { r with groups := GroupsVal.str (renderGroups gs), content := ContentVal.str s } ≠ r ∧
        TGS.repr_as_dict
            { r with groups := GroupsVal.str (renderGroups gs), content := ContentVal.str s } =
          Except.error PErr.typeError) := by
  refine ⟨fun g => rfl, fun g => rfl, ?_⟩
  intro r gs ns s hg hc hr hs
  refine ⟨by simp [TGS.repr_as_dict, hg, hc, hr], ?_, ?_⟩
  · intro he
    have hcontent := congrArg CGMPatientTGS.content he
    simp [hc] at hcontent
  · simp [TGS.repr_as_dict, hs]

/-- Witness for C6 at the concrete sample record. -/
theorem c6_amended_witness :
    (GOF.repr_as_dict ⟨"1", "E", "M", "1980-01-01", "AB", "1", "2000", "M", "0", "00",
        []⟩).2 = ⟨"1", "E", "M", "1980-01-01", "AB", "1", "2000", "M", "0", "00", []⟩ ∧
      (TGS.repr_as_dict tgsSampleRec = Except.ok (tgsSampleDict, tgsSampleMut) ∧
        tgsSampleMut ≠ tgsSampleRec ∧
        TGS.repr_as_dict tgsSampleMut = Except.error PErr.typeError) := by
  have h := c6_amended.2.2 tgsSampleRec [""] [tgsSampleNote]
    "2020-01-01\te\ts\tb\tf\tz\tHello" rfl rfl (by decide) (by decide)
  refine ⟨c6_amended.1 _, h.1.trans (by decide), ?_, ?_⟩
  · have he : tgsSampleMut =
        { tgsSampleRec with
          groups := GroupsVal.str (renderGroups [""]),
          content := ContentVal.str "2020-01-01\te\ts\tb\tf\tz\tHello" } := by decide
    rw [he]
    exact h.2.1
  · have he : tgsSampleMut =
        { tgsSampleRec with
          groups := GroupsVal.str (renderGroups [""]),
          content := ContentVal.str "2020-01-01\te\ts\tb\tf\tz\tHello" } := by decide
    rw [he]
    exact h.2.2

/-- Claim C4 (confirmed).  In the ChartStatistics content parser the
six sticky fields (the five column attributes and the date) are
inherited: every note after the first starts as a copy of its
predecessor with only the text buffer cleared, so if none of the lines
belonging to note `k+1` (the line that opened it and the lines up to
its close) re-captures a field, then note `k+1` carries the same value
of that field as note `k`. -/
theorem c4_sticky (f : SField) (content : List String)
    (r : List (FinNote × List String)) (k : Nat) (p q : FinNote × List String)
    (hr : TGS.parse_contentI content = Except.ok r)
    (hp : r.get? k = some p) (hq : r.get? (k + 1) = some q)
    (hn : ∀ l ∈ q.2, f.trig l = none) :
    f.getF q.1 = f.getF p.1 := by
  unfold TGS.parse_contentI at hr
  obtain ⟨st, hst, hr2⟩ := exceptBindOk hr
  simp only [pureOk, Except.ok.injEq] at hr2
  have hInv0 : stickyInv f tgsInit := by
    refine ⟨trivial, ?_⟩
    intro last hl
    simp [tgsInit] at hl
  have hInv := stickyInv_fold f content tgsInit st hst hInv0
  have hchain : noteChain f r := by
    rw [← hr2]
    exact noteChain_append f _ _ hInv.1
      (fun last hl hn2 => by rw [getF_finalize]; exact hInv.2 last hl hn2)
  exact noteChain_get? f r hchain k p q hp hq hn

/-- Witness for C4: two notes; the second line re-captures only
`erfasser`, and the second note inherits `behandler` (value `"b"`)
from the first. -/
theorem c4_sticky_witness :
    TGS.parse_contentI [tgsNoteLine1, tgsNoteLine2] = Except.ok
        [(tgsSampleNote, [tgsNoteLine1]),
          (⟨some "2020-01-01", some "X2", some "s", some "b", some "f", some "z",
            " World"⟩, [tgsNoteLine2])] ∧
      SField.behandler.getF
          ⟨some "2020-01-01", some "X2", some "s", some "b", some "f", some "z", " World"⟩ =
        SField.behandler.getF tgsSampleNote :=
  ⟨by rfl,
    c4_sticky SField.behandler [tgsNoteLine1, tgsNoteLine2]
      [(tgsSampleNote, [tgsNoteLine1]),
        (⟨some "2020-01-01", some "X2", some "s", some "b", some "f", some "z",
          " World"⟩, [tgsNoteLine2])]
      0 _ _ (by rfl) (by rfl) (by rfl) (by decide)⟩

/-- Claim C8 (counterexample).  On a line of thirty word characters the
single word begins at column 0 yet every attribute is (re)captured: a
word need not start at the attribute's column, a word-pattern match
beginning there (possibly mid-word) suffices.  In particular
`behandler` (column 15) captures the tail of the spanning word even
though the character before column 15 is also a word character. -/
theorem c8_counterexample :
    TGS.parse_content [tgsRunLine] = Except.ok
        [⟨none, some "AAAAAAAAAAAAAAAAAAAAA", some "AAAAAAAAAAAAAAAAA",
          some "AAAAAAAAAAAAAAA", some "AAAAAAAAAAA", some "AAAAAAA", "AA"⟩] ∧
      pyWordHy (tgsRunLine.data.getD 14 ' ') = true :=
  ⟨by rfl, by decide⟩

/-- Claim C8 (corrected).  For each of the five attributes, a content
line (re)captures the attribute exactly when a `[\w-]` character
stands at that attribute's fixed column (the preceding characters
being non-newlines); the captured value is the maximal `[\w-]` run
from that column, which may be the tail of a word that began before
the column. -/
theorem c8_amended :
    (∀ (st : TState) (line : String) (st' : TState) (a : TAttr),
      tgsLineStep st line = Except.ok st' →
      (matchOther a.col line = none → a.get st'.cur = a.get st.cur) ∧
      (∀ w, matchOther a.col line = some w → a.get st'.cur = some w)) ∧
    (∀ (v : Nat) (line : String) (w : String), matchOther v line = some w →
      pyWordHy (line.data.getD v ' ') = true ∧
      w = String.mk ((line.data.drop v).takeWhile pyWordHy)) ∧
    (∀ (v : Nat) (line : String), v < line.data.length →
      (line.data.take v).all pyDot = true →
      pyWordHy (line.data.getD v ' ') = true →
      (matchOther v line).isSome = true) := by
  refine ⟨?_, ?_, ?_⟩
  · intro st line st' a h
    obtain ⟨sNone, sSome, -, -⟩ := tgsLineStep_ok h
    exact ⟨sNone a, sSome a⟩
  · intro v line w h
    unfold matchOther at h
    simp only [] at h
    by_cases hcond : v < line.data.length ∧ (List.take v line.data).all pyDot = true ∧
        pyWordHy (line.data.getD v ' ') = true
    · rw [if_pos hcond] at h
      exact ⟨hcond.2.2, (Option.some.inj h).symm⟩
    · rw [if_neg hcond] at h
      simp at h
  · intro v line hlt hall hword
    unfold matchOther
    rw [if_pos ⟨hlt, hall, hword⟩]
    rfl

/-- Witness for C8: the spanning-word line exercises re-capture,
characterisation and existence at column 15 (`behandler`). -/
theorem c8_amended_witness :
    (tgsLineStep tgsInit tgsRunLine = Except.ok tgsRunState ∧
        TAttr.behandler.get tgsRunState.cur = some "AAAAAAAAAAAAAAA") ∧
      (pyWordHy (tgsRunLine.data.getD 15 ' ') = true ∧
        "AAAAAAAAAAAAAAA" = String.mk ((tgsRunLine.data.drop 15).takeWhile pyWordHy)) ∧
      (matchOther 15 tgsRunLine).isSome = true := by
  refine ⟨⟨by rfl, ?_⟩, ?_, ?_⟩
  · exact (c8_amended.1 tgsInit tgsRunLine tgsRunState TAttr.behandler (by rfl)).2
      "AAAAAAAAAAAAAAA" (by decide)
  · exact c8_amended.2.1 15 tgsRunLine "AAAAAAAAAAAAAAA" (by decide)
  · exact c8_amended.2.2 15 tgsRunLine (by decide) (by decide) (by decide)

end CGM
